import Mathlib

/-!
Shallow embedding of `src/main.py` (GitHub organizations backup script).

The script's effectful collaborators (filesystem, git, GitHub API) are
modelled as explicit data: the filesystem is an association list from path
strings to entries, and the network behaviour of `git clone` / `git pull` /
the GitHub API is an association list from URLs or names to results.
Python exceptions are modelled by an `Exc` type with one constructor per
exception class the script distinguishes; an operation that may raise is a
Lean function into `Except Exc _`, and a `try/except` block is a `match` on
that result in which only the handled constructors are converted back to a
normal result.
-/

deriving instance DecidableEq for Except

/-- Exception classes distinguished by the script.  `gitCommandError`
models `git.GitCommandError`, `githubException` models
`github.GithubException.GithubException`; the remaining constructors model
other Python exceptions that the git layer can raise (`Repo()` on a
non-repository directory, `repo.remotes.origin` when no remote named
`origin` exists, and any unanticipated error such as permission denied). -/
inductive Exc where
  | gitCommandError (m : String)
  | githubException (m : String)
  | invalidGitRepository (m : String)
  | noSuchRemote (m : String)
  | otherError (m : String)
deriving DecidableEq, Repr

def Exc.isGitCommandError : Exc → Bool
  | .gitCommandError _ => true
  | _ => false

def Exc.isGithubException : Exc → Bool
  | .githubException _ => true
  | _ => false

def Exc.msg : Exc → String
  | .gitCommandError m => m
  | .githubException m => m
  | .invalidGitRepository m => m
  | .noSuchRemote m => m
  | .otherError m => m

/-- Association-list lookup keyed by strings (used for the filesystem and
for the behaviour maps of the external collaborators). -/
def lookupA {β : Type} : List (String × β) → String → Option β
  | [], _ => none
  | (k, v) :: t, key => if k = key then some v else lookupA t key

/-- State of a local git repository: its named remotes (name to URL, as
registered at clone time) and the current branch tip, abstracted as a
commit counter. -/
structure RepoState where
  remotes : List (String × String)
  tip : Nat
deriving DecidableEq, Repr

/-- A filesystem entry: either a directory that is a git repository, or a
plain directory (one that `git.Repo` refuses to open). -/
inductive FSEntry where
  | repo (r : RepoState)
  | dir
deriving DecidableEq, Repr

/-- The filesystem: a finite map from path strings to entries. -/
abbrev FS := List (String × FSEntry)

/-- Model of `Path.exists()`. -/
def pathExists (fs : FS) (p : String) : Bool :=
  (lookupA fs p).isSome

/-- Insert-or-replace the entry at a path. -/
def fsSet (fs : FS) (p : String) (v : FSEntry) : FS :=
  match fs with
  | [] => [(p, v)]
  | (q, e) :: t => if q = p then (p, v) :: t else (q, e) :: fsSet t p v

/-- Model of `Path.mkdir(parents=True, exist_ok=True)`: create the
directory when absent, change nothing when the path already exists. -/
def mkdirP (fs : FS) (p : String) : FS :=
  if pathExists fs p then fs else fsSet fs p FSEntry.dir

/-- Model of the `/` path-join operator of `pathlib`. -/
def joinPath (a b : String) : String := a ++ "/" ++ b

/-- Behaviour of the git network layer, keyed by clone URL:
`cloneBeh url = ok tip` means `Repo.clone_from(url, path)` succeeds and
produces a clone whose branch tip is `tip`; `error e` means it raises `e`.
`pullBeh url = ok tip` means pulling from `url` fast-forwards the local
branch to `tip`; `error e` means the pull raises `e`. -/
structure GitEnv where
  cloneBeh : List (String × Except Exc Nat)
  pullBeh : List (String × Except Exc Nat)
deriving DecidableEq, Repr

/-- Result of `Repo.clone_from(url, _)`: a URL absent from the behaviour
map is unreachable (git raises a `GitCommandError`). -/
def GitEnv.cloneResult (g : GitEnv) (url : String) : Except Exc Nat :=
  match lookupA g.cloneBeh url with
  | some r => r
  | none => Except.error (Exc.gitCommandError ("repository not found: " ++ url))

/-- Result of `origin.pull()` against the remote at `url`. -/
def GitEnv.pullResult (g : GitEnv) (url : String) : Except Exc Nat :=
  match lookupA g.pullBeh url with
  | some r => r
  | none => Except.error (Exc.gitCommandError ("repository not found: " ++ url))

/-- The per-repository outcome, as the spec's tagged Outcome type. -/
inductive Outcome where
  | cloned
  | updated
  | failed (reason : String)
deriving DecidableEq, Repr

/-- Trace of git operations performed, used to state that operations are
attempted exactly once (no retry) and that a pull targets a given URL. -/
inductive GitCall where
  | cloneFrom (url path : String)
  | openRepo (path : String)
  | pull (url : String)
deriving DecidableEq, Repr

/-- Result of one invocation of `clone_or_pull_repo` that returned
normally: the filesystem afterwards, the per-repository outcome implicit
in the logs, the log lines emitted, and the git operations performed. -/
structure SyncResult where
  fs : FS
  outcome : Outcome
  log : List String
  calls : List GitCall
deriving DecidableEq, Repr

/-- Body of the `try` block of the update branch of `clone_or_pull_repo`
(`repo = Repo(local_path)`, log, `origin = repo.remotes.origin`,
`origin.pull()`), with the error it raises when it raises, together with
the git calls made and the log lines emitted up to that point. -/
def updateStep (g : GitEnv) (fs : FS) (repo_url local_path : String) :
    Except Exc FS × List GitCall × List String :=
  match lookupA fs local_path with
  | some (FSEntry.repo r) =>
      match lookupA r.remotes "origin" with
      | some u =>
          match g.pullResult u with
          | Except.ok tip =>
              (Except.ok (fsSet fs local_path (FSEntry.repo ⟨r.remotes, tip⟩)),
               [GitCall.openRepo local_path, GitCall.pull u],
               ["Pulling latest changes for repository: " ++ repo_url,
                "Successfully pulled updates for: " ++ repo_url])
          | Except.error e =>
              (Except.error e,
               [GitCall.openRepo local_path, GitCall.pull u],
               ["Pulling latest changes for repository: " ++ repo_url])
      | none =>
          (Except.error (Exc.noSuchRemote local_path),
           [GitCall.openRepo local_path],
           ["Pulling latest changes for repository: " ++ repo_url])
  | some FSEntry.dir =>
      (Except.error (Exc.invalidGitRepository local_path),
       [GitCall.openRepo local_path], [])
  | none =>
      (Except.error (Exc.otherError local_path),
       [GitCall.openRepo local_path], [])

/-- The clone branch of `clone_or_pull_repo` (taken when the local path
does not exist): `try: Repo.clone_from(...) except GitCommandError`.  Only
`GitCommandError` is handled; any other exception escapes the branch. -/
def cloneBranch (g : GitEnv) (fs : FS) (repo_url local_path : String) :
    Except Exc SyncResult :=
  match g.cloneResult repo_url with
  | Except.ok tip =>
      Except.ok
        ⟨fsSet fs local_path (FSEntry.repo ⟨[("origin", repo_url)], tip⟩),
         Outcome.cloned,
         ["Cloning repository: " ++ repo_url ++ " into " ++ local_path,
          "Successfully cloned: " ++ repo_url],
         [GitCall.cloneFrom repo_url local_path]⟩
  | Except.error e =>
      if e.isGitCommandError then
        Except.ok
          ⟨fs,
           Outcome.failed ("Failed to clone " ++ repo_url ++ ": " ++ e.msg),
           ["Cloning repository: " ++ repo_url ++ " into " ++ local_path,
            "Failed to clone " ++ repo_url ++ ": " ++ e.msg],
           [GitCall.cloneFrom repo_url local_path]⟩
      else Except.error e

/-- The update branch of `clone_or_pull_repo` (taken when the local path
exists): the try block `updateStep` with handlers
`except GitCommandError` and `except Exception`, which together catch
every exception. -/
def updateBranch (g : GitEnv) (fs : FS) (repo_url local_path : String) :
    Except Exc SyncResult :=
  match updateStep g fs repo_url local_path with
  | (Except.ok fs2, calls, lg) =>
      Except.ok ⟨fs2, Outcome.updated, lg, calls⟩
  | (Except.error e, calls, lg) =>
      Except.ok
        ⟨fs,
         Outcome.failed
           (if e.isGitCommandError then
              "Failed to pull updates for " ++ repo_url ++ ": " ++ e.msg
            else "Unexpected error with " ++ repo_url ++ ": " ++ e.msg),
         lg ++
           [if e.isGitCommandError then
              "Failed to pull updates for " ++ repo_url ++ ": " ++ e.msg
            else "Unexpected error with " ++ repo_url ++ ": " ++ e.msg],
         calls⟩

/-- Model of `clone_or_pull_repo(repo_url, local_path)` of `src/main.py`:
clone when the local path does not exist, otherwise open and pull.  A
value `Except.error e` means the Python function let exception `e`
propagate to its caller. -/
def clone_or_pull_repo (g : GitEnv) (fs : FS) (repo_url local_path : String) :
    Except Exc SyncResult :=
  if pathExists fs local_path = false then
    cloneBranch g fs repo_url local_path
  else
    updateBranch g fs repo_url local_path

/-- Behaviour of the GitHub API, keyed by organization name / login:
`orgBeh name = ok login` means `github_client.get_organization(name)`
succeeds and returns an organization object with that login;
`repoBeh login = ok rs` means `org.get_repos()` returns the repository
descriptors `rs` as (name, clone URL) pairs.  `error e` means the call
raises `e`. -/
structure GithubEnv where
  orgBeh : List (String × Except Exc String)
  repoBeh : List (String × Except Exc (List (String × String)))
deriving DecidableEq, Repr

/-- Result of `github_client.get_organization(name)`: a name absent from
the behaviour map does not resolve (the API raises a `GithubException`). -/
def GithubEnv.orgResult (gh : GithubEnv) (name : String) : Except Exc String :=
  match lookupA gh.orgBeh name with
  | some r => r
  | none => Except.error (Exc.githubException ("404: " ++ name))

/-- Result of `org.get_repos()` for the organization with this login. -/
def GithubEnv.repoResult (gh : GithubEnv) (login : String) :
    Except Exc (List (String × String)) :=
  match lookupA gh.repoBeh login with
  | some r => r
  | none => Except.error (Exc.githubException ("404: " ++ login))

/-- Model of `get_organizations(github_client, org_names)`: collect the
logins of the organizations that resolve, logging and skipping each one
whose lookup raises a `GithubException`.  An exception of any other class
is unhandled and propagates (`Except.error`). -/
def get_organizations (gh : GithubEnv) :
    List String → Except Exc (List String × List String)
  | [] => Except.ok ([], [])
  | name :: rest =>
      match gh.orgResult name with
      | Except.ok login =>
          match get_organizations gh rest with
          | Except.ok (ls, lg) =>
              Except.ok (login :: ls, ("Accessed organization: " ++ name) :: lg)
          | Except.error e => Except.error e
      | Except.error e =>
          if e.isGithubException then
            match get_organizations gh rest with
            | Except.ok (ls, lg) =>
                Except.ok
                  (ls,
                   ("Failed to access organization " ++ name ++ ": " ++ e.msg) :: lg)
            | Except.error e2 => Except.error e2
          else Except.error e

/-- Model of `get_repositories(org)`: the repository list of the
organization, or the empty list (with an error log line) when the listing
raises a `GithubException`.  Any other exception propagates. -/
def get_repositories (gh : GithubEnv) (login : String) :
    Except Exc (List (String × String) × List String) :=
  match gh.repoResult login with
  | Except.ok rs =>
      Except.ok (rs, ["Retrieved repositories from organization " ++ login])
  | Except.error e =>
      if e.isGithubException then
        Except.ok
          ([], ["Failed to retrieve repositories for organization " ++ login ++
                 ": " ++ e.msg])
      else Except.error e

/-- Accumulated state of the orchestration loops of `main`: the
filesystem, the per-repository outcomes as (org login, repo name, outcome)
triples, the git call trace, the log, and — when an exception escaped a
loop body — the exception that crashed the run at that point. -/
structure LoopState where
  fs : FS
  outcomes : List (String × String × Outcome)
  calls : List GitCall
  log : List String
  crash : Option Exc
deriving DecidableEq, Repr

/-- The inner `for repo in repos` loop of `main`: per repository, create
the per-organization directory, resolve the local path and invoke
`clone_or_pull_repo`.  An exception propagating out of
`clone_or_pull_repo` stops the loop (and the whole run). -/
def processRepos (g : GitEnv) (backup_dir login : String) (fs : FS) :
    List (String × String) → LoopState
  | [] => ⟨fs, [], [], [], none⟩
  | (rname, curl) :: rest =>
      let org_dir := joinPath backup_dir login
      let fs1 := mkdirP fs org_dir
      let local_path := joinPath org_dir rname
      match clone_or_pull_repo g fs1 curl local_path with
      | Except.error e => ⟨fs1, [], [], [], some e⟩
      | Except.ok sr =>
          let s := processRepos g backup_dir login sr.fs rest
          ⟨s.fs, (login, rname, sr.outcome) :: s.outcomes,
           sr.calls ++ s.calls, sr.log ++ s.log, s.crash⟩

/-- The outer `for org in organizations` loop of `main`: list the
repositories of each organization and process them. -/
def processOrgs (gh : GithubEnv) (g : GitEnv) (backup_dir : String) (fs : FS) :
    List String → LoopState
  | [] => ⟨fs, [], [], [], none⟩
  | login :: rest =>
      match get_repositories gh login with
      | Except.error e => ⟨fs, [], [], [], some e⟩
      | Except.ok (repos, lg1) =>
          let s1 := processRepos g backup_dir login fs repos
          match s1.crash with
          | some e => ⟨s1.fs, s1.outcomes, s1.calls, lg1 ++ s1.log, some e⟩
          | none =>
              let s2 := processOrgs gh g backup_dir s1.fs rest
              ⟨s2.fs, s1.outcomes ++ s2.outcomes, s1.calls ++ s2.calls,
               lg1 ++ s1.log ++ s2.log, s2.crash⟩

/-- The configuration record `main` reads from `config.yaml`. -/
structure Config where
  log_file : String
  token : String
  organizations : List String
  destination_path : String
deriving DecidableEq, Repr

/-- How a run of the process terminated: `exited c` is an exit with status
`c` (by `sys.exit` or by falling off the end of `main`, which exits 0);
`crashed e` is termination by the uncaught exception `e`. -/
inductive RunStatus where
  | exited (code : Nat)
  | crashed (e : Exc)
deriving DecidableEq, Repr

/-- Observable result of one run of the script. -/
structure RunResult where
  status : RunStatus
  fs : FS
  outcomes : List (String × String × Outcome)
  calls : List GitCall
  log : List String
deriving DecidableEq, Repr

/-- The whole environment of one run: the parsed configuration
(`none` models a missing or unparsable `config.yaml`, on which
`load_config` exits 1), the GitHub API behaviour, the git network
behaviour, and the initial filesystem. -/
structure RunEnv where
  config : Option Config
  gh : GithubEnv
  git : GitEnv
  fs : FS
deriving DecidableEq, Repr

/-- Model of `main()` of `src/main.py`: load the configuration, check the
token, resolve the organizations, fail hard when none resolved, create the
backup directory, run the organization/repository loops, and exit 0. -/
def mainRun (env : RunEnv) : RunResult :=
  match env.config with
  | none => ⟨RunStatus.exited 1, env.fs, [], [], ["Configuration file not found or unparsable."]⟩
  | some cfg =>
      if cfg.token = "" then
        ⟨RunStatus.exited 1, env.fs, [], [],
         ["GitHub token not provided in configuration."]⟩
      else
        match get_organizations env.gh cfg.organizations with
        | Except.error e => ⟨RunStatus.crashed e, env.fs, [], [], []⟩
        | Except.ok (logins, lg1) =>
            if logins = [] then
              ⟨RunStatus.exited 1, env.fs, [], [],
               lg1 ++ ["No valid organizations found. Exiting."]⟩
            else
              let fs1 := mkdirP env.fs cfg.destination_path
              let s := processOrgs env.gh env.git cfg.destination_path fs1 logins
              match s.crash with
              | some e =>
                  ⟨RunStatus.crashed e, s.fs, s.outcomes, s.calls, lg1 ++ s.log⟩
              | none =>
                  ⟨RunStatus.exited 0, s.fs, s.outcomes, s.calls,
                   lg1 ++ s.log ++ ["Backup process completed successfully."]⟩

/-- The clone-versus-update decision of the sync operation. -/
inductive SyncAction where
  | clone
  | update
deriving DecidableEq, Repr

/-- The decision function of `clone_or_pull_repo`: a function of the
filesystem and the local path alone (through `pathExists` only). -/
def syncAction (fs : FS) (local_path : String) : SyncAction :=
  if pathExists fs local_path = false then SyncAction.clone else SyncAction.update

/-- Test fixture: a git layer in which cloning `u` raises an exception
that is not a `GitCommandError`. -/
def gitPermDenied : GitEnv :=
  ⟨[("u", Except.error (Exc.otherError "permission denied"))], []⟩

/-- Test fixture: a git layer in which `u` is reachable with tip 3 for
both cloning and pulling. -/
def gitReach3 : GitEnv := ⟨[("u", Except.ok 3)], [("u", Except.ok 3)]⟩

/-- Test fixture: a run environment whose single configured organization
fails to resolve with a `GithubException`. -/
def envNoOrgs : RunEnv :=
  ⟨some ⟨"log", "tok", ["acme"], "bk"⟩,
   ⟨[("acme", Except.error (Exc.githubException "404"))], []⟩,
   ⟨[], []⟩, []⟩

/-- Test fixture: the scenario of the spec — organization `acme` with
repositories `svc-a` (unreachable clone URL) and `svc-b` (reachable). -/
def envScenario : RunEnv :=
  ⟨some ⟨"log", "tok", ["acme"], "bk"⟩,
   ⟨[("acme", Except.ok "acme")],
    [("acme", Except.ok [("svc-a", "uA"), ("svc-b", "uB")])]⟩,
   ⟨[("uA", Except.error (Exc.gitCommandError "bad url")), ("uB", Except.ok 7)],
    []⟩,
   []⟩

/-- Test fixture: a run environment with a valid startup in which the
single repository's clone raises an exception that is not a
`GitCommandError`, so the run crashes. -/
def envCrash : RunEnv :=
  ⟨some ⟨"log", "tok", ["acme"], "bk"⟩,
   ⟨[("acme", Except.ok "acme")], [("acme", Except.ok [("svc-a", "uX")])]⟩,
   ⟨[("uX", Except.error (Exc.otherError "boom"))], []⟩,
   []⟩

/-- Test fixture: a GitHub layer in which `globex` fails to resolve and
listing the repositories of `acme` fails, both with `GithubException`. -/
def ghApiFails : GithubEnv :=
  ⟨[("acme", Except.ok "acme"), ("globex", Except.error (Exc.githubException "404"))],
   [("acme", Except.error (Exc.githubException "500"))]⟩

/-- Test fixture: a GitHub layer in which resolving `globex` and listing
the repositories of `acme` fail with exceptions that are not
`GithubException`s. -/
def ghApiCrash : GithubEnv :=
  ⟨[("globex", Except.error (Exc.otherError "network down")), ("acme", Except.ok "acme")],
   [("acme", Except.error (Exc.otherError "boom"))]⟩

theorem lookupA_fsSet_self (fs : FS) (p : String) (v : FSEntry) :
    lookupA (fsSet fs p v) p = some v := by
  induction fs with
  | nil => simp [fsSet, lookupA]
  | cons hd t ih =>
      obtain ⟨q, e⟩ := hd
      by_cases hq : q = p
      · simp [fsSet, hq, lookupA]
      · simp [fsSet, hq, lookupA, ih]

theorem lookupA_fsSet_ne (fs : FS) (p q : String) (v : FSEntry) (h : q ≠ p) :
    lookupA (fsSet fs p v) q = lookupA fs q := by
  have h2 : p ≠ q := Ne.symm h
  induction fs with
  | nil => simp [fsSet, lookupA, h2]
  | cons hd t ih =>
      obtain ⟨k, e⟩ := hd
      by_cases hk : k = p
      · subst hk
        simp [fsSet, lookupA, h2]
      · simp [fsSet, hk, lookupA, ih]

theorem pathExists_fsSet_self (fs : FS) (p : String) (v : FSEntry) :
    pathExists (fsSet fs p v) p = true := by
  simp [pathExists, lookupA_fsSet_self]

theorem pathExists_fsSet_ne (fs : FS) (p q : String) (v : FSEntry) (h : q ≠ p) :
    pathExists (fsSet fs p v) q = pathExists fs q := by
  simp [pathExists, lookupA_fsSet_ne fs p q v h]

theorem pathExists_mkdirP_self (fs : FS) (p : String) :
    pathExists (mkdirP fs p) p = true := by
  unfold mkdirP
  by_cases h : pathExists fs p = true
  · simp [h]
  · simp only [Bool.not_eq_true] at h
    simp [h, pathExists_fsSet_self]

theorem pathExists_mkdirP_ne (fs : FS) (p q : String) (h : q ≠ p) :
    pathExists (mkdirP fs p) q = pathExists fs q := by
  unfold mkdirP
  by_cases hp : pathExists fs p = true
  · simp [hp]
  · simp only [Bool.not_eq_true] at hp
    simp [hp, pathExists_fsSet_ne fs p q _ h]

theorem mkdirP_of_exists (fs : FS) (p : String) (h : pathExists fs p = true) :
    mkdirP fs p = fs := by
  simp [mkdirP, h]

theorem updateBranch_isOk (g : GitEnv) (fs : FS) (u p : String) :
    ∃ sr, updateBranch g fs u p = Except.ok sr ∧ sr.outcome ≠ Outcome.cloned := by
  unfold updateBranch
  rcases h : updateStep g fs u p with ⟨r, calls, lg⟩
  cases r with
  | ok fs2 => exact ⟨_, rfl, by simp⟩
  | error e => exact ⟨_, rfl, by simp⟩

/-- C1 (counterexample): when the local path is absent and the clone
raises an exception that is not a `GitCommandError` (here a permission
error), `clone_or_pull_repo` does not catch it: the exception propagates
out of the operation, contradicting the claim that no exception ever
propagates. -/
theorem spec_c1_counterexample :
    clone_or_pull_repo gitPermDenied [] "u" "p" =
      Except.error (Exc.otherError "permission denied") := by
  rfl

/-- C1 (amended): an exception propagates out of `clone_or_pull_repo`
exactly when the clone branch is taken (the local path does not exist)
and the clone raises an exception that is not a `GitCommandError`.  In
particular every error in the update branch is caught and converted to a
logged Failed outcome, and so is a `GitCommandError` in the clone branch,
but any other exception raised during the clone propagates out. -/
theorem spec_c1_amended (g : GitEnv) (fs : FS) (url path : String) (e : Exc) :
    clone_or_pull_repo g fs url path = Except.error e ↔
      pathExists fs path = false ∧ g.cloneResult url = Except.error e ∧
        e.isGitCommandError = false := by
  unfold clone_or_pull_repo
  by_cases hp : pathExists fs path = false
  · rw [if_pos hp]
    unfold cloneBranch
    cases hc : g.cloneResult url with
    | ok tip => simp [hc]
    | error e2 =>
        cases he2 : e2.isGitCommandError with
        | true =>
            simp only [if_pos he2, hp, true_and, hc]
            constructor
            · intro h; cases h
            · rintro ⟨h1, h2⟩
              cases h1
              rw [he2] at h2
              cases h2
        | false =>
            simp only [he2, if_neg (by simp : ¬(false = true)), hp, true_and, hc]
            constructor
            · intro h
              cases h
              exact ⟨rfl, he2⟩
            · rintro ⟨h1, h2⟩
              cases h1
              rfl
  · rw [if_neg hp]
    obtain ⟨sr, hsr, _⟩ := updateBranch_isOk g fs url path
    rw [hsr]
    simp [hp]

/-- C2: the sync operation chooses clone versus update from filesystem
existence of the local path alone: `clone_or_pull_repo` is exactly the
branch selected by `syncAction`, and `syncAction` depends on the
filesystem only through `pathExists` at the local path, so no other
property of the path influences the decision. -/
theorem spec_c2 (g : GitEnv) (fs : FS) (url path : String) :
    (clone_or_pull_repo g fs url path =
      match syncAction fs path with
      | SyncAction.clone => cloneBranch g fs url path
      | SyncAction.update => updateBranch g fs url path) ∧
    (∀ fs2, pathExists fs2 path = pathExists fs path →
       syncAction fs2 path = syncAction fs path) := by
  constructor
  · unfold clone_or_pull_repo syncAction
    by_cases hp : pathExists fs path = false
    · rw [if_pos hp, if_pos hp]
    · rw [if_neg hp, if_neg hp]
  · intro fs2 h
    unfold syncAction
    rw [h]

/-- C2 (witness): the decision-invariance part of C2 at concrete
filesystems agreeing on existence of the path. -/
theorem spec_c2_witness :
    syncAction [] "p" = syncAction [("a", FSEntry.dir)] "p" :=
  (spec_c2 ⟨[], []⟩ [("a", FSEntry.dir)] "u" "p").2 [] (by decide)

theorem fsSet_fsSet (fs : FS) (p : String) (v w : FSEntry) :
    fsSet (fsSet fs p v) p w = fsSet fs p w := by
  induction fs with
  | nil => simp [fsSet]
  | cons hd t ih =>
      obtain ⟨k, e⟩ := hd
      by_cases hk : k = p
      · simp [fsSet, hk]
      · simp [fsSet, hk, ih]


theorem lookupA_cons_self {β : Type} (k : String) (v : β) (t : List (String × β)) :
    lookupA ((k, v) :: t) k = some v := by
  simp [lookupA]

/-- C8: a successful clone is visible afterwards — when
`clone_or_pull_repo` returns the Cloned outcome, the local path did not
exist beforehand, the clone of `cloneURL` succeeded, and afterwards the
local path exists and holds a repository whose `origin` remote is
`cloneURL`. -/
theorem spec_c8 (g : GitEnv) (fs : FS) (url path : String) (sr : SyncResult)
    (hok : clone_or_pull_repo g fs url path = Except.ok sr)
    (hcl : sr.outcome = Outcome.cloned) :
    pathExists fs path = false ∧
      ∃ tip, g.cloneResult url = Except.ok tip ∧
        lookupA sr.fs path = some (FSEntry.repo ⟨[("origin", url)], tip⟩) ∧
        pathExists sr.fs path = true := by
  unfold clone_or_pull_repo at hok
  by_cases hp : pathExists fs path = false
  · rw [if_pos hp] at hok
    cases hc : g.cloneResult url with
    | ok tip =>
        simp only [cloneBranch, hc, Except.ok.injEq] at hok
        refine ⟨hp, tip, rfl, ?_, ?_⟩
        · rw [← hok]
          exact lookupA_fsSet_self fs path _
        · rw [← hok]
          exact pathExists_fsSet_self fs path _
    | error e =>
        simp only [cloneBranch, hc] at hok
        by_cases he : e.isGitCommandError = true
        · rw [if_pos he] at hok
          simp only [Except.ok.injEq] at hok
          rw [← hok] at hcl
          simp at hcl
        · rw [if_neg he] at hok
          exact absurd hok (by simp)
  · rw [if_neg hp] at hok
    obtain ⟨sr2, hsr2, hne⟩ := updateBranch_isOk g fs url path
    rw [hsr2] at hok
    simp only [Except.ok.injEq] at hok
    rw [← hok] at hcl
    exact absurd hcl hne

/-- C8 (witness): C8 instantiated at a reachable URL cloned into an empty
filesystem. -/
theorem spec_c8_witness :
    pathExists ([] : FS) "p" = false ∧
      ∃ tip, gitReach3.cloneResult "u" = Except.ok tip ∧
        lookupA [("p", FSEntry.repo ⟨[("origin", "u")], 3⟩)] "p" =
          some (FSEntry.repo ⟨[("origin", "u")], tip⟩) ∧
        pathExists [("p", FSEntry.repo ⟨[("origin", "u")], 3⟩)] "p" = true :=
  spec_c8 gitReach3 [] "u" "p"
    ⟨[("p", FSEntry.repo ⟨[("origin", "u")], 3⟩)], Outcome.cloned,
     ["Cloning repository: u into p", "Successfully cloned: u"],
     [GitCall.cloneFrom "u" "p"]⟩
    (by rfl) rfl

/-- C7: clone-then-sync round trip — when the local path is absent, the
clone of `url` succeeds with tip `tip`, and the remote still has tip
`tip` (no new commits), the first invocation clones and the second
invocation takes the update branch, does not error, yields the Updated
outcome and leaves the local filesystem unchanged. -/
theorem spec_c7 (g : GitEnv) (fs : FS) (url path : String) (tip : Nat)
    (hp : pathExists fs path = false)
    (hc : g.cloneResult url = Except.ok tip)
    (hpull : g.pullResult url = Except.ok tip) :
    ∃ sr1 sr2,
      clone_or_pull_repo g fs url path = Except.ok sr1 ∧
      sr1.outcome = Outcome.cloned ∧
      clone_or_pull_repo g sr1.fs url path = Except.ok sr2 ∧
      sr2.outcome = Outcome.updated ∧
      sr2.fs = sr1.fs := by
  refine ⟨⟨fsSet fs path (FSEntry.repo ⟨[("origin", url)], tip⟩), Outcome.cloned,
      ["Cloning repository: " ++ url ++ " into " ++ path,
       "Successfully cloned: " ++ url],
      [GitCall.cloneFrom url path]⟩,
    ⟨fsSet fs path (FSEntry.repo ⟨[("origin", url)], tip⟩), Outcome.updated,
      ["Pulling latest changes for repository: " ++ url,
       "Successfully pulled updates for: " ++ url],
      [GitCall.openRepo path, GitCall.pull url]⟩, ?_, rfl, ?_, rfl, rfl⟩
  · simp only [clone_or_pull_repo, cloneBranch, if_pos hp, hc]
  · have hex : pathExists (fsSet fs path (FSEntry.repo ⟨[("origin", url)], tip⟩)) path = true :=
      pathExists_fsSet_self fs path _
    have hne : ¬ pathExists (fsSet fs path (FSEntry.repo ⟨[("origin", url)], tip⟩)) path = false := by
      rw [hex]; simp
    simp only [clone_or_pull_repo, if_neg hne, updateBranch, updateStep,
      lookupA_fsSet_self, lookupA_cons_self, hpull, fsSet_fsSet]

/-- C7 (witness): C7 instantiated at a reachable URL with equal clone and
pull tips, starting from the empty filesystem. -/
theorem spec_c7_witness :
    ∃ sr1 sr2,
      clone_or_pull_repo gitReach3 [] "u" "p" = Except.ok sr1 ∧
      sr1.outcome = Outcome.cloned ∧
      clone_or_pull_repo gitReach3 sr1.fs "u" "p" = Except.ok sr2 ∧
      sr2.outcome = Outcome.updated ∧
      sr2.fs = sr1.fs :=
  spec_c7 gitReach3 [] "u" "p" 3 (by rfl) (by rfl) (by rfl)

/-- C10: in the update branch the pull, when performed, targets exactly
the URL of the remote named `origin` of the repository opened at the
local path; and when the local path cannot be opened as a repository, or
the repository has no remote named `origin`, the exception is caught by
the update branch handlers and converted to a Failed outcome with the
filesystem unchanged — the operation still returns normally. -/
theorem spec_c10 (g : GitEnv) (fs : FS) (url path : String)
    (hp : pathExists fs path = true) :
    ∃ sr, clone_or_pull_repo g fs url path = Except.ok sr ∧
      (∀ u, GitCall.pull u ∈ sr.calls →
         ∃ r, lookupA fs path = some (FSEntry.repo r) ∧
           lookupA r.remotes "origin" = some u) ∧
      (∀ r, lookupA fs path = some (FSEntry.repo r) →
         lookupA r.remotes "origin" = none →
         sr.outcome =
           Outcome.failed ("Unexpected error with " ++ url ++ ": " ++ path) ∧
         sr.fs = fs) ∧
      (lookupA fs path = some FSEntry.dir →
         sr.outcome =
           Outcome.failed ("Unexpected error with " ++ url ++ ": " ++ path) ∧
         sr.fs = fs) := by
  have hp2 : ¬ pathExists fs path = false := by rw [hp]; simp
  cases hl : lookupA fs path with
  | none =>
      exfalso
      rw [pathExists, hl] at hp
      simp at hp
  | some entry =>
      cases entry with
      | dir =>
          refine ⟨⟨fs, Outcome.failed ("Unexpected error with " ++ url ++ ": " ++ path),
            ["Unexpected error with " ++ url ++ ": " ++ path],
            [GitCall.openRepo path]⟩, ?_, ?_, ?_, ?_⟩
          · simp only [clone_or_pull_repo, updateBranch, updateStep, if_neg hp2, hl]
            rfl
          · intro u hu
            simp at hu
          · intro r hr
            simp at hr
          · intro _
            exact ⟨rfl, rfl⟩
      | repo r =>
          cases ho : lookupA r.remotes "origin" with
          | none =>
              refine ⟨⟨fs, Outcome.failed ("Unexpected error with " ++ url ++ ": " ++ path),
                ["Pulling latest changes for repository: " ++ url,
                 "Unexpected error with " ++ url ++ ": " ++ path],
                [GitCall.openRepo path]⟩, ?_, ?_, ?_, ?_⟩
              · simp only [clone_or_pull_repo, updateBranch, updateStep, if_neg hp2, hl, ho]
                rfl
              · intro u hu
                simp at hu
              · intro r2 hr2 _
                simp only [Option.some.injEq, FSEntry.repo.injEq] at hr2
                exact ⟨rfl, rfl⟩
              · intro hd
                simp at hd
          | some u =>
              cases hpl : g.pullResult u with
              | ok tip =>
                  refine ⟨⟨fsSet fs path (FSEntry.repo ⟨r.remotes, tip⟩), Outcome.updated,
                    ["Pulling latest changes for repository: " ++ url,
                     "Successfully pulled updates for: " ++ url],
                    [GitCall.openRepo path, GitCall.pull u]⟩, ?_, ?_, ?_, ?_⟩
                  · simp only [clone_or_pull_repo, updateBranch, updateStep, if_neg hp2,
                      hl, ho, hpl]
                  · intro u2 hu2
                    simp only [List.mem_cons, List.not_mem_nil, or_false] at hu2
                    rcases hu2 with h | h
                    · cases h
                    · cases h
                      exact ⟨r, rfl, ho⟩
                  · intro r2 hr2 ho2
                    simp only [Option.some.injEq, FSEntry.repo.injEq] at hr2
                    rw [← hr2] at ho2
                    rw [ho] at ho2
                    exact absurd ho2 (by simp)
                  · intro hd
                    simp at hd
              | error e =>
                  refine ⟨⟨fs, Outcome.failed
                      (if e.isGitCommandError then
                        "Failed to pull updates for " ++ url ++ ": " ++ e.msg
                       else "Unexpected error with " ++ url ++ ": " ++ e.msg),
                    ["Pulling latest changes for repository: " ++ url] ++
                      [if e.isGitCommandError then
                        "Failed to pull updates for " ++ url ++ ": " ++ e.msg
                       else "Unexpected error with " ++ url ++ ": " ++ e.msg],
                    [GitCall.openRepo path, GitCall.pull u]⟩, ?_, ?_, ?_, ?_⟩
                  · simp only [clone_or_pull_repo, updateBranch, updateStep, if_neg hp2,
                      hl, ho, hpl]
                  · intro u2 hu2
                    simp only [List.mem_cons, List.not_mem_nil, or_false] at hu2
                    rcases hu2 with h | h
                    · cases h
                    · cases h
                      exact ⟨r, rfl, ho⟩
                  · intro r2 hr2 ho2
                    simp only [Option.some.injEq, FSEntry.repo.injEq] at hr2
                    rw [← hr2] at ho2
                    rw [ho] at ho2
                    exact absurd ho2 (by simp)
                  · intro hd
                    simp at hd

/-- C10 (witness): C10 instantiated at a local path holding a directory
that is not a repository — the operation returns a Failed outcome and
leaves the filesystem unchanged. -/
theorem spec_c10_witness :
    ∃ sr, clone_or_pull_repo ⟨[], []⟩ [("p", FSEntry.dir)] "u" "p" = Except.ok sr ∧
      (∀ u, GitCall.pull u ∈ sr.calls →
         ∃ r, lookupA [("p", FSEntry.dir)] "p" = some (FSEntry.repo r) ∧
           lookupA r.remotes "origin" = some u) ∧
      (∀ r, lookupA [("p", FSEntry.dir)] "p" = some (FSEntry.repo r) →
         lookupA r.remotes "origin" = none →
         sr.outcome = Outcome.failed ("Unexpected error with " ++ "u" ++ ": " ++ "p") ∧
         sr.fs = [("p", FSEntry.dir)]) ∧
      (lookupA [("p", FSEntry.dir)] "p" = some FSEntry.dir →
         sr.outcome = Outcome.failed ("Unexpected error with " ++ "u" ++ ": " ++ "p") ∧
         sr.fs = [("p", FSEntry.dir)]) :=
  spec_c10 ⟨[], []⟩ [("p", FSEntry.dir)] "u" "p" (by rfl)

/-- C3: a run in which zero organizations are successfully accessed exits
with status 1 before any repository processing begins and performs no
filesystem writes under the backup root: the filesystem is unchanged (in
particular the backup root directory is not created), no per-repository
outcome is produced and no git operation is performed. -/
theorem spec_c3 (env : RunEnv) (cfg : Config) (lg : List String)
    (hcfg : env.config = some cfg)
    (htok : cfg.token ≠ "")
    (horg : get_organizations env.gh cfg.organizations = Except.ok ([], lg)) :
    (mainRun env).status = RunStatus.exited 1 ∧
    (mainRun env).fs = env.fs ∧
    (mainRun env).outcomes = [] ∧
    (mainRun env).calls = [] := by
  have h : mainRun env =
      ⟨RunStatus.exited 1, env.fs, [], [],
       lg ++ ["No valid organizations found. Exiting."]⟩ := by
    simp only [mainRun, hcfg, horg, if_neg htok]
    exact if_pos trivial
  rw [h]
  exact ⟨rfl, rfl, rfl, rfl⟩

/-- C3 (witness): C3 instantiated at a run whose single configured
organization fails to resolve. -/
theorem spec_c3_witness :
    (mainRun envNoOrgs).status = RunStatus.exited 1 ∧
    (mainRun envNoOrgs).fs = envNoOrgs.fs ∧
    (mainRun envNoOrgs).outcomes = [] ∧
    (mainRun envNoOrgs).calls = [] :=
  spec_c3 envNoOrgs ⟨"log", "tok", ["acme"], "bk"⟩
    ["Failed to access organization acme: 404"] rfl (by decide) (by rfl)

/-- C5 (counterexample): resolving `globex` fails with an exception that
is not a `GithubException`; `get_organizations` does not catch it, so the
run aborts with that exception and the later organization `acme` is never
attempted (no outcome is produced, nothing is written); likewise a
repository listing that fails with a non-`GithubException` yields an
error, not an empty repository list. -/
theorem spec_c5_counterexample :
    get_organizations ghApiCrash ["globex", "acme"] =
      Except.error (Exc.otherError "network down") ∧
    (mainRun ⟨some ⟨"log", "tok", ["globex", "acme"], "bk"⟩, ghApiCrash,
       ⟨[], []⟩, []⟩).status = RunStatus.crashed (Exc.otherError "network down") ∧
    (mainRun ⟨some ⟨"log", "tok", ["globex", "acme"], "bk"⟩, ghApiCrash,
       ⟨[], []⟩, []⟩).outcomes = [] ∧
    (mainRun ⟨some ⟨"log", "tok", ["globex", "acme"], "bk"⟩, ghApiCrash,
       ⟨[], []⟩, []⟩).fs = [] ∧
    get_repositories ghApiCrash "acme" = Except.error (Exc.otherError "boom") := by
  refine ⟨by rfl, by rfl, by rfl, by rfl, by rfl⟩

/-- C5 (amended): organization-scoped API failures of the anticipated
kind are isolated — an organization whose resolution fails with a
`GithubException` is logged and skipped without changing the resolved
logins of the other organizations, and a repository listing that fails
with a `GithubException` yields the empty repository list; but a failure
of any other exception class is not caught: it propagates out of
`get_organizations` (so the organizations after the failing one are never
attempted and the run aborts) and out of `get_repositories`. -/
theorem spec_c5_amended :
    (∀ (gh : GithubEnv) (pre post : List String) (name : String) (e : Exc),
       gh.orgResult name = Except.error e → e.isGithubException = true →
       ∀ ls lg, get_organizations gh (pre ++ post) = Except.ok (ls, lg) →
         ∃ lg2, get_organizations gh (pre ++ name :: post) = Except.ok (ls, lg2)) ∧
    (∀ (gh : GithubEnv) (login : String) (e : Exc),
       gh.repoResult login = Except.error e → e.isGithubException = true →
       get_repositories gh login =
         Except.ok ([], ["Failed to retrieve repositories for organization " ++
           login ++ ": " ++ e.msg])) ∧
    (∀ (gh : GithubEnv) (pre post : List String) (name : String) (e : Exc),
       gh.orgResult name = Except.error e → e.isGithubException = false →
       ∀ ls lg, get_organizations gh pre = Except.ok (ls, lg) →
         get_organizations gh (pre ++ name :: post) = Except.error e) ∧
    (∀ (gh : GithubEnv) (login : String) (e : Exc),
       gh.repoResult login = Except.error e → e.isGithubException = false →
       get_repositories gh login = Except.error e) := by
  refine ⟨?_, ?_, ?_, ?_⟩
  · intro gh pre post name e herr hgit
    induction pre with
    | nil =>
        intro ls lg h3
        simp only [List.nil_append] at h3 ⊢
        refine ⟨("Failed to access organization " ++ name ++ ": " ++ e.msg) :: lg, ?_⟩
        simp only [get_organizations, herr, hgit, if_true, h3]
    | cons k pre2 ih =>
        intro ls lg h3
        simp only [List.cons_append] at h3 ⊢
        cases hk : gh.orgResult k with
        | ok login =>
            simp only [get_organizations, hk] at h3
            cases hrec : get_organizations gh (pre2 ++ post) with
            | ok pair =>
                obtain ⟨ls2, lg2⟩ := pair
                rw [hrec] at h3
                simp only [Except.ok.injEq, Prod.mk.injEq] at h3
                obtain ⟨hls, hlg⟩ := h3
                obtain ⟨lgx, hx⟩ := ih ls2 lg2 hrec
                refine ⟨("Accessed organization: " ++ k) :: lgx, ?_⟩
                simp only [get_organizations, hk, hx, ← hls]
            | error e2 =>
                rw [hrec] at h3
                exact absurd h3 (by simp)
        | error e2 =>
            simp only [get_organizations, hk] at h3
            by_cases hg2 : e2.isGithubException = true
            · rw [if_pos hg2] at h3
              cases hrec : get_organizations gh (pre2 ++ post) with
              | ok pair =>
                  obtain ⟨ls2, lg2⟩ := pair
                  rw [hrec] at h3
                  simp only [Except.ok.injEq, Prod.mk.injEq] at h3
                  obtain ⟨hls, hlg⟩ := h3
                  obtain ⟨lgx, hx⟩ := ih ls2 lg2 hrec
                  refine ⟨("Failed to access organization " ++ k ++ ": " ++ e2.msg) :: lgx, ?_⟩
                  simp only [get_organizations, hk, if_pos hg2, hx, ← hls]
              | error e3 =>
                  rw [hrec] at h3
                  exact absurd h3 (by simp)
            · rw [if_neg hg2] at h3
              exact absurd h3 (by simp)
  · intro gh login e herr hgit
    simp only [get_repositories, herr, hgit, if_true]
  · intro gh pre post name e herr hgit
    have hng : ¬ e.isGithubException = true := by rw [hgit]; simp
    induction pre with
    | nil =>
        intro ls lg _
        simp only [List.nil_append]
        simp only [get_organizations, herr, if_neg hng]
    | cons k pre2 ih =>
        intro ls lg hpre
        simp only [List.cons_append]
        cases hk : gh.orgResult k with
        | ok login =>
            simp only [get_organizations, hk] at hpre ⊢
            cases hrec : get_organizations gh pre2 with
            | ok pair =>
                obtain ⟨ls2, lg2⟩ := pair
                rw [ih ls2 lg2 hrec]
            | error e2 =>
                rw [hrec] at hpre
                exact absurd hpre (by simp)
        | error e2 =>
            simp only [get_organizations, hk] at hpre ⊢
            by_cases hg2 : e2.isGithubException = true
            · rw [if_pos hg2] at hpre ⊢
              cases hrec : get_organizations gh pre2 with
              | ok pair =>
                  obtain ⟨ls2, lg2⟩ := pair
                  rw [ih ls2 lg2 hrec]
              | error e3 =>
                  rw [hrec] at hpre
                  exact absurd hpre (by simp)
            · rw [if_neg hg2] at hpre
              exact absurd hpre (by simp)
  · intro gh login e herr hgit
    have hng : ¬ e.isGithubException = true := by rw [hgit]; simp
    simp only [get_repositories, herr, if_neg hng]

/-- C5 (witness): the amended claim instantiated — a `GithubException`
while resolving `globex` leaves `acme` resolved and only adds a log line,
a `GithubException` listing failure yields the empty list, and
non-`GithubException` failures propagate out of both operations. -/
theorem spec_c5_witness :
    (∃ lg2, get_organizations ghApiFails (["acme"] ++ "globex" :: []) =
       Except.ok (["acme"], lg2)) ∧
    get_repositories ghApiFails "acme" =
      Except.ok ([], ["Failed to retrieve repositories for organization " ++
        "acme" ++ ": " ++ (Exc.githubException "500").msg]) ∧
    get_organizations ghApiCrash ([] ++ "globex" :: ["acme"]) =
      Except.error (Exc.otherError "network down") ∧
    get_repositories ghApiCrash "acme" = Except.error (Exc.otherError "boom") :=
  ⟨spec_c5_amended.1 ghApiFails ["acme"] [] "globex" (Exc.githubException "404")
     (by rfl) (by rfl) ["acme"] ["Accessed organization: acme"] (by rfl),
   spec_c5_amended.2.1 ghApiFails "acme" (Exc.githubException "500") (by rfl) (by rfl),
   spec_c5_amended.2.2.1 ghApiCrash [] ["acme"] "globex" (Exc.otherError "network down")
     (by rfl) (by rfl) [] [] (by rfl),
   spec_c5_amended.2.2.2 ghApiCrash "acme" (Exc.otherError "boom") (by rfl) (by rfl)⟩

theorem clone_or_pull_absent_gitfail (g : GitEnv) (fs : FS) (url path m : String)
    (hp : pathExists fs path = false)
    (hc : g.cloneResult url = Except.error (Exc.gitCommandError m)) :
    clone_or_pull_repo g fs url path =
      Except.ok ⟨fs, Outcome.failed ("Failed to clone " ++ url ++ ": " ++ m),
        ["Cloning repository: " ++ url ++ " into " ++ path,
         "Failed to clone " ++ url ++ ": " ++ m],
        [GitCall.cloneFrom url path]⟩ := by
  simp only [clone_or_pull_repo, if_pos hp, cloneBranch, hc]
  rfl

theorem clone_or_pull_absent_ok (g : GitEnv) (fs : FS) (url path : String) (tip : Nat)
    (hp : pathExists fs path = false)
    (hc : g.cloneResult url = Except.ok tip) :
    clone_or_pull_repo g fs url path =
      Except.ok ⟨fsSet fs path (FSEntry.repo ⟨[("origin", url)], tip⟩), Outcome.cloned,
        ["Cloning repository: " ++ url ++ " into " ++ path,
         "Successfully cloned: " ++ url],
        [GitCall.cloneFrom url path]⟩ := by
  simp only [clone_or_pull_repo, if_pos hp, cloneBranch, hc]

/-- C4: a repository whose clone attempt fails with a `GitCommandError`
is logged as a Failed outcome and isolated from the rest of the run:
(1) at any filesystem state — hence at any position in any organization —
the failing repository contributes exactly one clone attempt (no retry),
one Failed outcome and its log lines, and the loop continues with the
remaining repositories of the organization from that same state;
(2) whenever the per-organization loop completes, every repository
descriptor yields exactly one outcome, in input order; (3) whenever an
organization whose loop completed is followed by further organizations,
those later organizations are still processed and contribute their
outcomes; and (4) in the spec scenario — organization `acme` with
repositories `svc-a` (invalid clone URL) and `svc-b` — `svc-a` is Failed,
`svc-b` is still cloned, and the run exits 0. -/
theorem spec_c4 :
    (∀ (g : GitEnv) (dest login : String) (fs : FS) (rname curl m : String)
       (rest : List (String × String)),
       pathExists (mkdirP fs (joinPath dest login))
         (joinPath (joinPath dest login) rname) = false →
       g.cloneResult curl = Except.error (Exc.gitCommandError m) →
       processRepos g dest login fs ((rname, curl) :: rest) =
         ⟨(processRepos g dest login (mkdirP fs (joinPath dest login)) rest).fs,
          (login, rname,
            Outcome.failed ("Failed to clone " ++ curl ++ ": " ++ m)) ::
            (processRepos g dest login (mkdirP fs (joinPath dest login)) rest).outcomes,
          GitCall.cloneFrom curl (joinPath (joinPath dest login) rname) ::
            (processRepos g dest login (mkdirP fs (joinPath dest login)) rest).calls,
          ("Cloning repository: " ++ curl ++ " into " ++
              joinPath (joinPath dest login) rname) ::
            ("Failed to clone " ++ curl ++ ": " ++ m) ::
            (processRepos g dest login (mkdirP fs (joinPath dest login)) rest).log,
          (processRepos g dest login (mkdirP fs (joinPath dest login)) rest).crash⟩) ∧
    (∀ (g : GitEnv) (dest login : String) (fs : FS)
       (repos : List (String × String)),
       (processRepos g dest login fs repos).crash = none →
       (processRepos g dest login fs repos).outcomes.map (fun o => (o.1, o.2.1)) =
         repos.map (fun r => (login, r.1))) ∧
    (∀ (gh : GithubEnv) (g : GitEnv) (dest : String) (fs : FS) (login : String)
       (restOrgs : List String) (repos : List (String × String)) (lg : List String),
       get_repositories gh login = Except.ok (repos, lg) →
       (processRepos g dest login fs repos).crash = none →
       (processOrgs gh g dest fs (login :: restOrgs)).outcomes =
         (processRepos g dest login fs repos).outcomes ++
           (processOrgs gh g dest (processRepos g dest login fs repos).fs
             restOrgs).outcomes ∧
       (processOrgs gh g dest fs (login :: restOrgs)).crash =
         (processOrgs gh g dest (processRepos g dest login fs repos).fs
           restOrgs).crash) ∧
    (∀ (gh : GithubEnv) (g : GitEnv) (fs : FS)
       (lf tok dest orgName login rA rB uA uB m : String) (tip : Nat),
       tok ≠ "" →
       gh.orgResult orgName = Except.ok login →
       gh.repoResult login = Except.ok [(rA, uA), (rB, uB)] →
       g.cloneResult uA = Except.error (Exc.gitCommandError m) →
       g.cloneResult uB = Except.ok tip →
       pathExists fs (joinPath (joinPath dest login) rA) = false →
       pathExists fs (joinPath (joinPath dest login) rB) = false →
       joinPath (joinPath dest login) rA ≠ dest →
       joinPath (joinPath dest login) rA ≠ joinPath dest login →
       joinPath (joinPath dest login) rB ≠ dest →
       joinPath (joinPath dest login) rB ≠ joinPath dest login →
       (mainRun ⟨some ⟨lf, tok, [orgName], dest⟩, gh, g, fs⟩).status =
         RunStatus.exited 0 ∧
       (mainRun ⟨some ⟨lf, tok, [orgName], dest⟩, gh, g, fs⟩).outcomes =
         [(login, rA, Outcome.failed ("Failed to clone " ++ uA ++ ": " ++ m)),
          (login, rB, Outcome.cloned)] ∧
       (mainRun ⟨some ⟨lf, tok, [orgName], dest⟩, gh, g, fs⟩).calls =
         [GitCall.cloneFrom uA (joinPath (joinPath dest login) rA),
          GitCall.cloneFrom uB (joinPath (joinPath dest login) rB)] ∧
       pathExists (mainRun ⟨some ⟨lf, tok, [orgName], dest⟩, gh, g, fs⟩).fs
         (joinPath (joinPath dest login) rB) = true) := by
  refine ⟨?_, ?_, ?_, ?_⟩
  · intro g dest login fs rname curl m rest hp hc
    simp only [processRepos,
      clone_or_pull_absent_gitfail g (mkdirP fs (joinPath dest login)) curl
        (joinPath (joinPath dest login) rname) m hp hc,
      List.cons_append, List.nil_append]
  · intro g dest login fs repos
    induction repos generalizing fs with
    | nil =>
        intro _
        simp [processRepos]
    | cons hd rest ih =>
        intro hcr
        obtain ⟨rname, curl⟩ := hd
        cases hcl : clone_or_pull_repo g (mkdirP fs (joinPath dest login)) curl
            (joinPath (joinPath dest login) rname) with
        | error e =>
            simp only [processRepos, hcl] at hcr
            exact absurd hcr (by simp)
        | ok sr =>
            simp only [processRepos, hcl] at hcr ⊢
            simp only [List.map_cons]
            exact congrArg (List.cons (login, rname)) (ih sr.fs hcr)
  · intro gh g dest fs login restOrgs repos lg hrep hcr
    constructor <;> simp only [processOrgs, hrep, hcr]
  · intro gh g fs lf tok dest orgName login rA rB uA uB m tip
      htok h1 h2 h3 h4 hA hB hAd hAo hBd hBo
    have h_orgs : get_organizations gh [orgName] =
        Except.ok ([login], ["Accessed organization: " ++ orgName]) := by
      simp only [get_organizations, h1]
    have h_repos : get_repositories gh login =
        Except.ok ([(rA, uA), (rB, uB)],
          ["Retrieved repositories from organization " ++ login]) := by
      simp only [get_repositories, h2]
    have hexA : pathExists (mkdirP (mkdirP fs dest) (joinPath dest login))
        (joinPath (joinPath dest login) rA) = false := by
      rw [pathExists_mkdirP_ne _ _ _ hAo, pathExists_mkdirP_ne _ _ _ hAd, hA]
    have hexB : pathExists (mkdirP (mkdirP fs dest) (joinPath dest login))
        (joinPath (joinPath dest login) rB) = false := by
      rw [pathExists_mkdirP_ne _ _ _ hBo, pathExists_mkdirP_ne _ _ _ hBd, hB]
    have hsA := clone_or_pull_absent_gitfail g
      (mkdirP (mkdirP fs dest) (joinPath dest login)) uA
      (joinPath (joinPath dest login) rA) m hexA h3
    have hsB := clone_or_pull_absent_ok g
      (mkdirP (mkdirP fs dest) (joinPath dest login)) uB
      (joinPath (joinPath dest login) rB) tip hexB h4
    have hmk : mkdirP (mkdirP (mkdirP fs dest) (joinPath dest login))
        (joinPath dest login) = mkdirP (mkdirP fs dest) (joinPath dest login) :=
      mkdirP_of_exists _ _ (pathExists_mkdirP_self _ _)
    refine ⟨?_, ?_, ?_, ?_⟩ <;>
      simp only [mainRun, if_neg htok, h_orgs, if_neg (List.cons_ne_nil login []),
        processOrgs, h_repos, processRepos, hmk, hsA, hsB,
        List.cons_append, List.nil_append, List.append_nil,
        pathExists_fsSet_self]

/-- C4 (witness): the four parts instantiated — a failing clone at a
concrete state with continuation, outcome completeness for a one-element
repository list, continuation past a listed organization, and the
concrete `acme` scenario with `svc-a` failing and `svc-b` cloned. -/
theorem spec_c4_witness :
    (processRepos ⟨[("uA", Except.error (Exc.gitCommandError "bad url"))], []⟩
       "bk" "acme" [] [("svc-a", "uA")] =
       ⟨(processRepos ⟨[("uA", Except.error (Exc.gitCommandError "bad url"))], []⟩
           "bk" "acme" (mkdirP [] (joinPath "bk" "acme")) []).fs,
        ("acme", "svc-a",
          Outcome.failed ("Failed to clone " ++ "uA" ++ ": " ++ "bad url")) ::
          (processRepos ⟨[("uA", Except.error (Exc.gitCommandError "bad url"))], []⟩
            "bk" "acme" (mkdirP [] (joinPath "bk" "acme")) []).outcomes,
        GitCall.cloneFrom "uA" (joinPath (joinPath "bk" "acme") "svc-a") ::
          (processRepos ⟨[("uA", Except.error (Exc.gitCommandError "bad url"))], []⟩
            "bk" "acme" (mkdirP [] (joinPath "bk" "acme")) []).calls,
        ("Cloning repository: " ++ "uA" ++ " into " ++
            joinPath (joinPath "bk" "acme") "svc-a") ::
          ("Failed to clone " ++ "uA" ++ ": " ++ "bad url") ::
          (processRepos ⟨[("uA", Except.error (Exc.gitCommandError "bad url"))], []⟩
            "bk" "acme" (mkdirP [] (joinPath "bk" "acme")) []).log,
        (processRepos ⟨[("uA", Except.error (Exc.gitCommandError "bad url"))], []⟩
          "bk" "acme" (mkdirP [] (joinPath "bk" "acme")) []).crash⟩) ∧
    ((processRepos ⟨[], []⟩ "bk" "acme" [] [("svc-a", "uA")]).outcomes.map
       (fun o => (o.1, o.2.1)) =
       [("svc-a", "uA")].map (fun r => ("acme", r.1))) ∧
    ((processOrgs ghApiFails ⟨[], []⟩ "bk" [] ("acme" :: [])).outcomes =
       (processRepos ⟨[], []⟩ "bk" "acme" [] []).outcomes ++
         (processOrgs ghApiFails ⟨[], []⟩ "bk"
           (processRepos ⟨[], []⟩ "bk" "acme" [] []).fs []).outcomes ∧
     (processOrgs ghApiFails ⟨[], []⟩ "bk" [] ("acme" :: [])).crash =
       (processOrgs ghApiFails ⟨[], []⟩ "bk"
         (processRepos ⟨[], []⟩ "bk" "acme" [] []).fs []).crash) ∧
    ((mainRun ⟨some ⟨"log", "tok", ["acme"], "bk"⟩,
        ⟨[("acme", Except.ok "acme")],
         [("acme", Except.ok [("svc-a", "uA"), ("svc-b", "uB")])]⟩,
        ⟨[("uA", Except.error (Exc.gitCommandError "bad url")),
          ("uB", Except.ok 7)], []⟩, []⟩).status = RunStatus.exited 0 ∧
     (mainRun ⟨some ⟨"log", "tok", ["acme"], "bk"⟩,
        ⟨[("acme", Except.ok "acme")],
         [("acme", Except.ok [("svc-a", "uA"), ("svc-b", "uB")])]⟩,
        ⟨[("uA", Except.error (Exc.gitCommandError "bad url")),
          ("uB", Except.ok 7)], []⟩, []⟩).outcomes =
       [("acme", "svc-a",
          Outcome.failed ("Failed to clone " ++ "uA" ++ ": " ++ "bad url")),
        ("acme", "svc-b", Outcome.cloned)] ∧
     (mainRun ⟨some ⟨"log", "tok", ["acme"], "bk"⟩,
        ⟨[("acme", Except.ok "acme")],
         [("acme", Except.ok [("svc-a", "uA"), ("svc-b", "uB")])]⟩,
        ⟨[("uA", Except.error (Exc.gitCommandError "bad url")),
          ("uB", Except.ok 7)], []⟩, []⟩).calls =
       [GitCall.cloneFrom "uA" (joinPath (joinPath "bk" "acme") "svc-a"),
        GitCall.cloneFrom "uB" (joinPath (joinPath "bk" "acme") "svc-b")] ∧
     pathExists (mainRun ⟨some ⟨"log", "tok", ["acme"], "bk"⟩,
        ⟨[("acme", Except.ok "acme")],
         [("acme", Except.ok [("svc-a", "uA"), ("svc-b", "uB")])]⟩,
        ⟨[("uA", Except.error (Exc.gitCommandError "bad url")),
          ("uB", Except.ok 7)], []⟩, []⟩).fs
       (joinPath (joinPath "bk" "acme") "svc-b") = true) :=
  ⟨spec_c4.1 ⟨[("uA", Except.error (Exc.gitCommandError "bad url"))], []⟩
     "bk" "acme" [] "svc-a" "uA" "bad url" [] (by rfl) (by rfl),
   spec_c4.2.1 ⟨[], []⟩ "bk" "acme" [] [("svc-a", "uA")] (by rfl),
   spec_c4.2.2.1 ghApiFails ⟨[], []⟩ "bk" [] "acme" [] []
     ["Failed to retrieve repositories for organization acme: 500"]
     (by rfl) (by rfl),
   spec_c4.2.2.2
     ⟨[("acme", Except.ok "acme")],
      [("acme", Except.ok [("svc-a", "uA"), ("svc-b", "uB")])]⟩
     ⟨[("uA", Except.error (Exc.gitCommandError "bad url")), ("uB", Except.ok 7)], []⟩
     [] "log" "tok" "bk" "acme" "acme" "svc-a" "svc-b" "uA" "uB" "bad url" 7
     (by decide) (by rfl) (by rfl) (by rfl) (by rfl) (by rfl) (by rfl)
     (by decide) (by decide) (by decide) (by decide)⟩

/-- C6 (counterexample): a run with a perfectly valid startup — parsable
configuration, non-empty token, one successfully accessed organization —
terminates abnormally (neither exit 0 nor the startup exit 1) because the
single repository's clone raises an exception that is not a
`GitCommandError`, which `clone_or_pull_repo` does not catch.  So a
non-zero termination is not confined to fatal startup conditions. -/
theorem spec_c6_counterexample :
    envCrash.config = some ⟨"log", "tok", ["acme"], "bk"⟩ ∧
    ("tok" : String) ≠ "" ∧
    get_organizations envCrash.gh ["acme"] =
      Except.ok (["acme"], ["Accessed organization: acme"]) ∧
    (["acme"] : List String) ≠ [] ∧
    (mainRun envCrash).status = RunStatus.crashed (Exc.otherError "boom") ∧
    (mainRun envCrash).status ≠ RunStatus.exited 0 ∧
    (mainRun envCrash).status ≠ RunStatus.exited 1 := by
  refine ⟨rfl, by decide, by rfl, by decide, by rfl, ?_, ?_⟩ <;> decide

/-- C6 (amended): a run whose organization/repository loop completes
without an uncaught exception exits with status 0 regardless of how many
per-repository outcomes were Failed; an exit with a non-zero status is
always status 1 and arises only from a fatal startup condition (missing
or unparsable configuration, empty token, or zero accessible
organizations) — while an unanticipated exception escaping repository or
listing processing terminates the run abnormally (crash) instead. -/
theorem spec_c6_amended :
    (∀ (env : RunEnv) (cfg : Config) (logins lg : List String),
       env.config = some cfg → cfg.token ≠ "" →
       get_organizations env.gh cfg.organizations = Except.ok (logins, lg) →
       logins ≠ [] →
       (processOrgs env.gh env.git cfg.destination_path
          (mkdirP env.fs cfg.destination_path) logins).crash = none →
       (mainRun env).status = RunStatus.exited 0) ∧
    (∀ (env : RunEnv) (c : Nat),
       (mainRun env).status = RunStatus.exited c → c ≠ 0 →
       c = 1 ∧
       (env.config = none ∨
        ∃ cfg, env.config = some cfg ∧
          (cfg.token = "" ∨
           ∃ lg, get_organizations env.gh cfg.organizations =
             Except.ok ([], lg)))) := by
  constructor
  · intro env cfg logins lg hcfg htok horg hlogins hcrash
    simp only [mainRun, hcfg, horg, if_neg htok, if_neg hlogins, hcrash]
  · intro env c hst hc
    cases hcfg : env.config with
    | none =>
        simp only [mainRun, hcfg] at hst
        exact ⟨by cases hst; rfl, Or.inl rfl⟩
    | some cfg =>
        by_cases htok : cfg.token = ""
        · simp only [mainRun, hcfg, if_pos htok] at hst
          exact ⟨by cases hst; rfl, Or.inr ⟨cfg, rfl, Or.inl htok⟩⟩
        · cases horg : get_organizations env.gh cfg.organizations with
          | error e =>
              simp only [mainRun, hcfg, if_neg htok, horg] at hst
              exact absurd hst (by simp)
          | ok pair =>
              obtain ⟨logins, lg⟩ := pair
              by_cases hl : logins = []
              · subst hl
                simp only [mainRun, hcfg, if_neg htok, horg] at hst
                rw [if_pos trivial] at hst
                exact ⟨by cases hst; rfl, Or.inr ⟨cfg, rfl, Or.inr ⟨lg, horg⟩⟩⟩
              · simp only [mainRun, hcfg, if_neg htok, horg, if_neg hl] at hst
                cases hcr : (processOrgs env.gh env.git cfg.destination_path
                    (mkdirP env.fs cfg.destination_path) logins).crash with
                | some e =>
                    rw [hcr] at hst
                    exact absurd hst (by simp)
                | none =>
                    rw [hcr] at hst
                    simp only [RunStatus.exited.injEq] at hst
                    exact absurd hst.symm hc

/-- C6 (witness): the amended claim instantiated — the scenario run with
one failed repository exits 0, and the zero-organizations run exits 1
with the startup condition identified. -/
theorem spec_c6_witness :
    (mainRun envScenario).status = RunStatus.exited 0 ∧
    ((1 : Nat) = 1 ∧
     (envNoOrgs.config = none ∨
      ∃ cfg, envNoOrgs.config = some cfg ∧
        (cfg.token = "" ∨
         ∃ lg, get_organizations envNoOrgs.gh cfg.organizations =
           Except.ok ([], lg)))) :=
  ⟨spec_c6_amended.1 envScenario ⟨"log", "tok", ["acme"], "bk"⟩ ["acme"]
     ["Accessed organization: acme"] rfl (by decide) (by rfl) (by decide) (by rfl),
   spec_c6_amended.2 envNoOrgs 1 (by rfl) (by decide)⟩

theorem pathExists_fsSet_sub (fs : FS) (p q : String) (v : FSEntry)
    (h : pathExists (fsSet fs p v) q = true) :
    pathExists fs q = true ∨ q = p := by
  by_cases hq : q = p
  · exact Or.inr hq
  · exact Or.inl (by rw [← pathExists_fsSet_ne fs p q v hq]; exact h)

theorem pathExists_mkdirP_sub (fs : FS) (p q : String)
    (h : pathExists (mkdirP fs p) q = true) :
    pathExists fs q = true ∨ q = p := by
  by_cases hq : q = p
  · exact Or.inr hq
  · exact Or.inl (by rw [← pathExists_mkdirP_ne fs p q hq]; exact h)

theorem updateStep_ok_fs (g : GitEnv) (fs : FS) (url path : String) (fs2 : FS)
    (calls : List GitCall) (lg : List String)
    (h : updateStep g fs url path = (Except.ok fs2, calls, lg)) :
    ∃ r tip, lookupA fs path = some (FSEntry.repo r) ∧
      fs2 = fsSet fs path (FSEntry.repo ⟨r.remotes, tip⟩) := by
  cases hl : lookupA fs path with
  | none => simp [updateStep, hl] at h
  | some entry =>
      cases entry with
      | dir => simp [updateStep, hl] at h
      | repo r =>
          cases ho : lookupA r.remotes "origin" with
          | none => simp [updateStep, hl, ho] at h
          | some u =>
              cases hpl : g.pullResult u with
              | ok tip =>
                  simp only [updateStep, hl, ho, hpl, Prod.mk.injEq,
                    Except.ok.injEq] at h
                  exact ⟨r, tip, rfl, h.1.symm⟩
              | error e => simp [updateStep, hl, ho, hpl] at h

theorem clone_or_pull_fs_sub (g : GitEnv) (fs : FS) (url path : String)
    (sr : SyncResult) (h : clone_or_pull_repo g fs url path = Except.ok sr)
    (q : String) (hq : pathExists sr.fs q = true) :
    pathExists fs q = true ∨ q = path := by
  unfold clone_or_pull_repo at h
  by_cases hp : pathExists fs path = false
  · rw [if_pos hp] at h
    cases hc : g.cloneResult url with
    | ok tip =>
        simp only [cloneBranch, hc, Except.ok.injEq] at h
        rw [← h] at hq
        exact pathExists_fsSet_sub fs path q _ hq
    | error e =>
        simp only [cloneBranch, hc] at h
        by_cases he : e.isGitCommandError = true
        · rw [if_pos he] at h
          simp only [Except.ok.injEq] at h
          rw [← h] at hq
          exact Or.inl hq
        · rw [if_neg he] at h
          exact absurd h (by simp)
  · rw [if_neg hp] at h
    unfold updateBranch at h
    rcases hu : updateStep g fs url path with ⟨res, calls, lg⟩
    rw [hu] at h
    cases res with
    | ok fs2 =>
        simp only [Except.ok.injEq] at h
        rw [← h] at hq
        obtain ⟨r, tip, hl, hfs2⟩ := updateStep_ok_fs g fs url path fs2 calls lg hu
        rw [hfs2] at hq
        exact pathExists_fsSet_sub fs path q _ hq
    | error e =>
        simp only [Except.ok.injEq] at h
        rw [← h] at hq
        exact Or.inl hq

theorem processRepos_fs_sub (g : GitEnv) (dest login : String)
    (repos : List (String × String)) (fs : FS) (p : String)
    (h : pathExists (processRepos g dest login fs repos).fs p = true) :
    pathExists fs p = true ∨
      (repos ≠ [] ∧
       (p = joinPath dest login ∨
        ∃ r, r ∈ repos ∧ p = joinPath (joinPath dest login) r.1)) := by
  induction repos generalizing fs with
  | nil =>
      simp only [processRepos] at h
      exact Or.inl h
  | cons hd rest ih =>
      obtain ⟨rname, curl⟩ := hd
      cases hcl : clone_or_pull_repo g (mkdirP fs (joinPath dest login)) curl
          (joinPath (joinPath dest login) rname) with
      | error e =>
          simp only [processRepos, hcl] at h
          rcases pathExists_mkdirP_sub fs (joinPath dest login) p h with h2 | h2
          · exact Or.inl h2
          · exact Or.inr ⟨by simp, Or.inl h2⟩
      | ok sr =>
          simp only [processRepos, hcl] at h
          rcases ih sr.fs h with h2 | ⟨_, h3⟩
          · rcases clone_or_pull_fs_sub g (mkdirP fs (joinPath dest login)) curl
                (joinPath (joinPath dest login) rname) sr hcl p h2 with h4 | h4
            · rcases pathExists_mkdirP_sub fs (joinPath dest login) p h4 with h5 | h5
              · exact Or.inl h5
              · exact Or.inr ⟨by simp, Or.inl h5⟩
            · exact Or.inr ⟨by simp, Or.inr ⟨(rname, curl), by simp, h4⟩⟩
          · rcases h3 with h3 | ⟨r, hr, h5⟩
            · exact Or.inr ⟨by simp, Or.inl h3⟩
            · exact Or.inr ⟨by simp, Or.inr ⟨r, by simp [hr], h5⟩⟩

/-- C9: the per-organization directory is created inside the
per-repository loop — processing an empty repository list leaves the
filesystem untouched, an organization whose repository list is empty
(including one whose listing failed and returned the empty list)
contributes nothing to the filesystem, outcomes or git calls of the run,
and every path the loops create belongs to an organization with at least
one repository descriptor: it is that organization's directory or one of
its repository paths. -/
theorem spec_c9 :
    (∀ (g : GitEnv) (dest login : String) (fs : FS),
       processRepos g dest login fs [] = ⟨fs, [], [], [], none⟩) ∧
    (∀ (gh : GithubEnv) (g : GitEnv) (dest : String) (fs : FS) (login : String)
       (rest : List String) (lg : List String),
       get_repositories gh login = Except.ok ([], lg) →
       (processOrgs gh g dest fs (login :: rest)).fs =
         (processOrgs gh g dest fs rest).fs ∧
       (processOrgs gh g dest fs (login :: rest)).outcomes =
         (processOrgs gh g dest fs rest).outcomes ∧
       (processOrgs gh g dest fs (login :: rest)).calls =
         (processOrgs gh g dest fs rest).calls) ∧
    (∀ (gh : GithubEnv) (g : GitEnv) (dest : String) (fs : FS)
       (logins : List String) (p : String),
       pathExists (processOrgs gh g dest fs logins).fs p = true →
       pathExists fs p = true ∨
         ∃ login, login ∈ logins ∧ ∃ repos lg,
           get_repositories gh login = Except.ok (repos, lg) ∧ repos ≠ [] ∧
           (p = joinPath dest login ∨
            ∃ r, r ∈ repos ∧ p = joinPath (joinPath dest login) r.1)) := by
  refine ⟨?_, ?_, ?_⟩
  · intro g dest login fs
    simp only [processRepos]
  · intro gh g dest fs login rest lg hrep
    refine ⟨?_, ?_, ?_⟩ <;>
      simp only [processOrgs, hrep, processRepos, List.nil_append]
  · intro gh g dest fs logins p h
    induction logins generalizing fs with
    | nil =>
        simp only [processOrgs] at h
        exact Or.inl h
    | cons login rest ih =>
        cases hr : get_repositories gh login with
        | error e =>
            simp only [processOrgs, hr] at h
            exact Or.inl h
        | ok pair =>
            obtain ⟨repos, lg⟩ := pair
            cases hcr : (processRepos g dest login fs repos).crash with
            | some e =>
                simp only [processOrgs, hr, hcr] at h
                rcases processRepos_fs_sub g dest login repos fs p h with h2 | ⟨hne, h3⟩
                · exact Or.inl h2
                · exact Or.inr ⟨login, by simp, repos, lg, hr, hne, h3⟩
            | none =>
                simp only [processOrgs, hr, hcr] at h
                rcases ih (processRepos g dest login fs repos).fs h with h2 | ⟨l2, hmem, h3⟩
                · rcases processRepos_fs_sub g dest login repos fs p h2 with h4 | ⟨hne, h5⟩
                  · exact Or.inl h4
                  · exact Or.inr ⟨login, by simp, repos, lg, hr, hne, h5⟩
                · exact Or.inr ⟨l2, by simp [hmem], h3⟩

/-- C9 (witness): C9 instantiated — the organization `acme`, whose
listing fails and yields the empty list, contributes nothing to the run,
and a pre-existing path is accounted for by the initial filesystem. -/
theorem spec_c9_witness :
    ((processOrgs ghApiFails ⟨[], []⟩ "bk" [] ("acme" :: [])).fs =
       (processOrgs ghApiFails ⟨[], []⟩ "bk" [] []).fs ∧
     (processOrgs ghApiFails ⟨[], []⟩ "bk" [] ("acme" :: [])).outcomes =
       (processOrgs ghApiFails ⟨[], []⟩ "bk" [] []).outcomes ∧
     (processOrgs ghApiFails ⟨[], []⟩ "bk" [] ("acme" :: [])).calls =
       (processOrgs ghApiFails ⟨[], []⟩ "bk" [] []).calls) ∧
    (pathExists [("x", FSEntry.dir)] "x" = true ∨
       ∃ login, login ∈ ([] : List String) ∧ ∃ repos lg,
         get_repositories ghApiFails login = Except.ok (repos, lg) ∧ repos ≠ [] ∧
         (("x" : String) = joinPath "bk" login ∨
          ∃ r, r ∈ repos ∧ ("x" : String) = joinPath (joinPath "bk" login) r.1)) :=
  ⟨spec_c9.2.1 ghApiFails ⟨[], []⟩ "bk" [] "acme" []
     ["Failed to retrieve repositories for organization acme: 500"] (by rfl),
   spec_c9.2.2 ghApiFails ⟨[], []⟩ "bk" [("x", FSEntry.dir)] [] "x" (by rfl)⟩
